import Mathlib

/-!
Verification development for the car-inspection record-keeping API
(`main.py` / `schemas.py`).

The embedding models:
* the pure invoice derivation inside `create_inspection` (main.py lines 140-166);
* the `/search` endpoint's matching, owner resolution and grouping
  (main.py lines 67-112) together with `to_obj_id` (lines 23-27);
* the `/pay` endpoint (main.py lines 178-185).

Modelling conventions:
* MongoDB documents become Lean structures whose `_id` is the field `id`;
  `ObjectId` values are modelled as their 24-hex-character string form and are
  compared by string equality (`to_obj_id` becomes the validity check
  `isValidObjectId`).  Store collections are lists in collection order.
* Python `float` arithmetic on the invoice amounts is modelled by exact
  rationals; every amount reachable in this program is an exact 2-decimal
  value, so the rational semantics agrees with the decimal value of the float
  results.  Python's `round(x, 2)` (round-half-to-even) becomes `pyRound2`.
* MongoDB `$regex` with option `i` is modelled by `regexSearch`, a matcher for
  the fragment of the regex language consisting of literal characters and the
  `.` wildcard (sufficient for every query analysed here); case-insensitivity
  is by `Char.toLower` folding.
* Each `db[...].find(...)` call counts as one store access; `searchEntries`
  returns the number of accesses performed alongside its result.
-/

/-- Characters stripped by Python's `str.strip()` (ASCII whitespace). -/
def isPySpace (c : Char) : Bool :=
  c = ' ' || c = '\t' || c = '\n' || c = '\r' || c = '\x0b' || c = '\x0c'

/-- Python's `q.strip()`. -/
def pyStrip (s : String) : String :=
  String.mk (((s.data.dropWhile isPySpace).reverse.dropWhile isPySpace).reverse)

/-- Hex digit test, both cases, as accepted by `bson.ObjectId`. -/
def isHexCh (c : Char) : Bool :=
  c.isDigit || ('a' ≤ c && c ≤ 'f') || ('A' ≤ c && c ≤ 'F')

/-- `to_obj_id` (main.py lines 23-27) succeeds exactly on 24-character hex
strings; this is `bson.ObjectId`'s string validity condition. -/
def isValidObjectId (s : String) : Bool :=
  s.length = 24 && s.data.all isHexCh

/-- One pattern character against one subject character, case-insensitively
(regex option `i`); `.` is the wildcard. -/
def charMatches (p c : Char) : Bool :=
  p = '.' || p.toLower = c.toLower

/-- The pattern matches at the front of the subject. -/
def matchesHere : List Char → List Char → Bool
  | [], _ => true
  | _ :: _, [] => false
  | p :: ps, c :: cs => charMatches p c && matchesHere ps cs

/-- Unanchored regex search, as MongoDB `$regex` performs: the pattern may
match at any position of the subject. -/
def regexSearch (pat : List Char) : List Char → Bool
  | [] => matchesHere pat []
  | c :: cs => matchesHere pat (c :: cs) || regexSearch pat cs

/-- A character with no special regex meaning. -/
def isLiteralChar (c : Char) : Bool :=
  !(c = '.' || c = '*' || c = '+' || c = '?' || c = '[' || c = ']' ||
    c = '(' || c = ')' || c = '\x7b' || c = '\x7d' || c = '^' || c = '$' ||
    c = '|' || c = '\\')

/-- The first list is an initial segment of the second. -/
def matchFront : List Char → List Char → Bool
  | [], _ => true
  | _ :: _, [] => false
  | a :: as, b :: bs => a = b && matchFront as bs

/-- The first list occurs contiguously inside the second. -/
def hasSub (needle : List Char) : List Char → Bool
  | [] => matchFront needle []
  | b :: bs => matchFront needle (b :: bs) || hasSub needle bs

/-- Case-insensitive substring relation on strings (the specification's
reading of the search matching). -/
def ciSubstr (needle hay : String) : Bool :=
  hasSub (needle.data.map Char.toLower) (hay.data.map Char.toLower)

/-- A `customer` collection document. -/
structure CustomerDoc where
  id : String
  name : String
  phone : String
  email : String
deriving DecidableEq

/-- A `vehicle` collection document. -/
structure VehicleDoc where
  id : String
  customer_id : String
  vin : String
  plate : String
  make : String
  model : String
  year : Int
  color : Option String
deriving DecidableEq

/-- One invoice line item `{name, qty, price}`. -/
structure LineItem where
  name : String
  qty : Nat
  price : ℚ
deriving DecidableEq

/-- An `invoice` collection document. -/
structure InvoiceDoc where
  id : String
  inspection_id : String
  line_items : List LineItem
  subtotal : ℚ
  taxes : ℚ
  total : ℚ
  paid : Bool
deriving DecidableEq

/-- An HTTP error raised via `HTTPException(status_code, detail)`. -/
structure HErr where
  status : Nat
  detail : String
deriving DecidableEq

/-- The document store: the three collections the analysed endpoints touch,
each in collection order. -/
structure Store where
  customers : List CustomerDoc
  vehicles : List VehicleDoc
  invoices : List InvoiceDoc
deriving DecidableEq

/-- The 400 error raised by `to_obj_id`. -/
def objIdErr : HErr := HErr.mk 400 "Invalid ObjectId"

/-!  ## Invoice derivation (main.py lines 140-166)  -/

/-- A `checks` mapping: section name -> list of (item name, status), in
insertion order. -/
abbrev Checks := List (String × List (String × String))

/-- The inner counting loop over one section's items: the two independent
`if v == "attention"` / `if v == "fail"` increments. -/
def countItems (acc : Nat × Nat) : List (String × String) → Nat × Nat
  | [] => acc
  | iv :: rest =>
    let acc1 := if iv.2 = "attention" then (acc.1 + 1, acc.2) else acc
    let acc2 := if iv.2 = "fail" then (acc1.1, acc1.2 + 1) else acc1
    countItems acc2 rest

/-- The outer counting loop over sections. -/
def countChecks (acc : Nat × Nat) : Checks → Nat × Nat
  | [] => acc
  | sec :: rest => countChecks (countItems acc sec.2) rest

/-- Python's banker's rounding of a rational to the nearest integer
(`round` with ties to even). -/
def roundHalfToEven (x : ℚ) : ℤ :=
  let f := ⌊x⌋
  if x - f < 1/2 then f
  else if 1/2 < x - f then f + 1
  else if f % 2 = 0 then f else f + 1

/-- Python's `round(x, 2)`. -/
def pyRound2 (x : ℚ) : ℚ := (roundHalfToEven (x * 100) : ℚ) / 100

/-- Rounding to 2 decimal places with ties going up — the specification's
"standard half-up" rounding (the amounts involved are nonnegative). -/
def roundHalfUp2 (x : ℚ) : ℚ := (⌊x * 100 + 1/2⌋ : ℚ) / 100

/-- An exact 2-decimal currency amount. -/
def twoDecimal (x : ℚ) : Prop := ∃ n : ℤ, x = (n : ℚ) / 100

instance (x : ℚ) : Decidable (twoDecimal x) := by
  unfold twoDecimal
  by_cases h : x * 100 = ((⌊x * 100⌋ : ℤ) : ℚ)
  · exact Decidable.isTrue ⟨⌊x * 100⌋, by field_simp at h ⊢; linarith⟩
  · refine Decidable.isFalse ?_
    rintro ⟨n, rfl⟩
    apply h
    rw [div_mul_cancel₀ _ (by norm_num : (100 : ℚ) ≠ 0)]
    norm_num

/-- Invoice amounts derived from the (attention, fail) counts: line items in
the fixed order, then subtotal, taxes, total, paid (main.py lines 148-166). -/
structure InvoiceData where
  line_items : List LineItem
  subtotal : ℚ
  taxes : ℚ
  total : ℚ
  paid : Bool
deriving DecidableEq

/-- Builds the invoice body from the status counts, mirroring main.py lines
148-157 (Python `if counts[..]:` is the `≠ 0` test; the float literals
`25.0`, `60.0`, `49.0`, `0.08` denote their exact decimal values). -/
def invoiceFromCounts (counts : Nat × Nat) : InvoiceData :=
  let line_items :=
    (if counts.1 ≠ 0 then [LineItem.mk "Preventive maintenance items" counts.1 25.0] else []) ++
      (if counts.2 ≠ 0 then [LineItem.mk "Critical repair items" counts.2 60.0] else []) ++
        [LineItem.mk "Base inspection fee" 1 49.0]
  let subtotal := (line_items.map (fun li => (li.qty : ℚ) * li.price)).sum
  let taxes := pyRound2 (subtotal * 0.08)
  let total := pyRound2 (subtotal + taxes)
  InvoiceData.mk line_items subtotal taxes total false

/-- The Invoice Deriver: the pure invoice computation of `create_inspection`
(main.py lines 140-166). -/
def derive_invoice (checks : Checks) : InvoiceData :=
  invoiceFromCounts (countChecks (0, 0) checks)

/-- All item statuses across all sections, in order. -/
def allStatuses (checks : Checks) : List String :=
  ((checks.map Prod.snd).flatten).map Prod.snd

/-- The specification's count: number of item statuses equal to `s`. -/
def statusCount (s : String) (checks : Checks) : Nat :=
  (allStatuses checks).count s

/-- The two `checks` mappings contain the same sections and items with the
same statuses, in permuted insertion order of sections and of items within
sections. -/
def ChecksPerm (c₁ c₂ : Checks) : Prop :=
  ∃ c', List.Perm c₁ c' ∧
    List.Forall₂ (fun s t => s.1 = t.1 ∧ List.Perm s.2 t.2) c' c₂

instance {ε α : Type} [DecidableEq ε] [DecidableEq α] : DecidableEq (Except ε α) := fun a b =>
  match a, b with
  | Except.ok x, Except.ok y =>
    if h : x = y then Decidable.isTrue (by rw [h])
    else Decidable.isFalse (by intro hc; cases hc; exact h rfl)
  | Except.error x, Except.error y =>
    if h : x = y then Decidable.isTrue (by rw [h])
    else Decidable.isFalse (by intro hc; cases hc; exact h rfl)
  | Except.ok _, Except.error _ => Decidable.isFalse (by intro hc; cases hc)
  | Except.error _, Except.ok _ => Decidable.isFalse (by intro hc; cases hc)

/-!  ## Search and grouping (main.py lines 67-112)  -/

/-- The customer text match of main.py lines 75-77: `$regex` on name, phone
or email with option `i`. -/
def custMatches (query : String) (c : CustomerDoc) : Bool :=
  regexSearch query.data c.name.data || regexSearch query.data c.phone.data ||
    regexSearch query.data c.email.data

/-- The vehicle text match of main.py lines 79-81: `$regex` on vin, plate,
make or model with option `i`. -/
def vehMatches (query : String) (v : VehicleDoc) : Bool :=
  regexSearch query.data v.vin.data || regexSearch query.data v.plate.data ||
    regexSearch query.data v.make.data || regexSearch query.data v.model.data

/-- `customers = db["customer"].find({"$or": [...]})` (main.py line 75). -/
def matchedCustomers (st : Store) (query : String) : List CustomerDoc :=
  st.customers.filter (fun c => custMatches query c)

/-- `vehicles = db["vehicle"].find({"$or": [...]})` (main.py line 79). -/
def matchedVehicles (st : Store) (query : String) : List VehicleDoc :=
  st.vehicles.filter (fun v => vehMatches query v)

/-- `missing_cust_ids` (main.py line 87): customer ids of matched vehicles
absent from the matched-customer map (kept as a list; only membership and
emptiness matter, as for the Python set). -/
def missingIds (st : Store) (query : String) : List String :=
  ((matchedVehicles st query).map (fun v => v.customer_id)).filter
    (fun cid => !((matchedCustomers st query).any (fun c => c.id = cid)))

/-- `extra_customers` (main.py line 89): store customers whose id is a
non-empty missing id (the `if cid` guard drops the empty string; `to_obj_id`
round-trips a valid id to itself under the exact-string id model). -/
def extrasOf (st : Store) (query : String) : List CustomerDoc :=
  if missingIds st query = [] then []
  else st.customers.filter
    (fun c => (missingIds st query).any (fun cid => cid = c.id) && c.id ≠ "")

/-- Lookup in a Python dict built by inserting the listed customers keyed by
their id, in order (later insertions win). -/
def dictGet (cs : List CustomerDoc) (cid : String) : Option CustomerDoc :=
  cs.reverse.find? (fun c => c.id = cid)

/-- `cust_map.get` after the extra customers were merged in (main.py lines
84-91). -/
def custDict (st : Store) (query : String) (cid : String) : Option CustomerDoc :=
  dictGet (matchedCustomers st query ++ extrasOf st query) cid

/-- One result group: the key `cid` of `grouped`, its `customer` value and
its `vehicles` list. -/
structure GroupEntry where
  key : String
  customer : Option CustomerDoc
  vehicles : List VehicleDoc
deriving DecidableEq

/-- `grouped.setdefault(cid, {...})` followed by appending the vehicle
(main.py lines 95-98), on the insertion-ordered dict. -/
def insertVeh : List GroupEntry → String → Option CustomerDoc → VehicleDoc → List GroupEntry
  | [], cid, cust, v => [GroupEntry.mk cid cust [v]]
  | g :: gs, cid, cust, v =>
    if g.key = cid then { g with vehicles := g.vehicles ++ [v] } :: gs
    else g :: insertVeh gs cid cust v

/-- The vehicle grouping loop (main.py lines 95-98); `m` is `cust_map.get`. -/
def buildVehGroups (m : String → Option CustomerDoc) (gs : List GroupEntry) :
    List VehicleDoc → List GroupEntry
  | [] => gs
  | v :: vs => buildVehGroups m (insertVeh gs v.customer_id (m v.customer_id) v) vs

/-- The matched-customer loop (main.py lines 101-103): `setdefault` of a
group holding all of the customer's vehicles fetched from the store. -/
def addCustGroups (allVehs : List VehicleDoc) (gs : List GroupEntry) :
    List CustomerDoc → List GroupEntry
  | [] => gs
  | c :: cs =>
    let gs' :=
      if gs.any (fun g => g.key = c.id) then gs
      else gs ++ [GroupEntry.mk c.id (some c)
        (allVehs.filter (fun v => v.customer_id = c.id))]
    addCustGroups allVehs gs' cs

/-- The groups `/search` produces for a non-blank stripped query, in
insertion order of `grouped`. -/
def resultGroups (st : Store) (query : String) : List GroupEntry :=
  addCustGroups st.vehicles
    (buildVehGroups (custDict st query) [] (matchedVehicles st query))
    (matchedCustomers st query)

/-- The `/search` endpoint (main.py lines 67-112).  Returns the groups (or
the `to_obj_id` 400 error) together with the number of store reads performed:
the customer and vehicle finds, the one extra-customers find when
`missing_cust_ids` is non-empty, and one vehicle find per matched customer
(Python evaluates the `setdefault` default eagerly). -/
def searchEntries (st : Store) (qRaw : String) : Except HErr (List GroupEntry) × Nat :=
  let query := pyStrip qRaw
  if query = "" then (Except.ok [], 0)
  else if (missingIds st query).any
      (fun cid => cid ≠ "" && !(isValidObjectId cid)) then
    (Except.error objIdErr, 2)
  else
    (Except.ok (resultGroups st query),
      2 + (if missingIds st query = [] then 0 else 1) +
        (matchedCustomers st query).length)

/-- A serialized result group as returned to the client: `{customer,
vehicles}` (main.py lines 106-110; `serialize` is the identity under the
string-id model). -/
structure ResultGroup where
  customer : Option CustomerDoc
  vehicles : List VehicleDoc
deriving DecidableEq

/-- The `/search` response body together with the store-access count. -/
def search (st : Store) (qRaw : String) : Except HErr (List ResultGroup) × Nat :=
  ((searchEntries st qRaw).1.map
    (fun gs => gs.map (fun g => ResultGroup.mk g.customer g.vehicles)),
   (searchEntries st qRaw).2)

/-!  ## Payment (main.py lines 178-185)  -/

/-- `update_one({"_id": inv_id}, {"$set": {"paid": True}})`: sets `paid` on
the first (under unique ids, the only) matching invoice. -/
def setPaidFirst : List InvoiceDoc → String → List InvoiceDoc
  | [], _ => []
  | inv :: rest, iid =>
    if inv.id = iid then { inv with paid := true } :: rest
    else inv :: setPaidFirst rest iid

/-- The `/pay` endpoint (main.py lines 178-185): validate the id, update the
invoice, 404 when nothing matched, else return the freshly fetched document
(`find_one` can in principle return nothing, hence the `Option`). -/
def pay_invoice (st : Store) (invoice_id : String) :
    Except HErr (Option InvoiceDoc) × Store :=
  if isValidObjectId invoice_id then
    let invoices' := setPaidFirst st.invoices invoice_id
    if st.invoices.any (fun i => i.id = invoice_id) then
      (Except.ok (invoices'.find? (fun i => i.id = invoice_id)),
        { st with invoices := invoices' })
    else (Except.error (HErr.mk 404 "Invoice not found"),
      { st with invoices := invoices' })
  else (Except.error objIdErr, st)

/-- Lookup of the group stored under key `k`. -/
def findG (gs : List GroupEntry) (k : String) : Option GroupEntry :=
  gs.find? (fun g => g.key = k)

/-!  ## Concrete documents and stores used for instantiations  -/

def ownerBob : CustomerDoc :=
  CustomerDoc.mk "aaaaaaaaaaaaaaaaaaaaaaaa" "Bob" "1" "b@c"

def vinVeh : VehicleDoc :=
  VehicleDoc.mk "bbbbbbbbbbbbbbbbbbbbbbbb" "aaaaaaaaaaaaaaaaaaaaaaaa" "ZZZ123"
    "P1" "Mk" "Md" 2000 none

def vinStore : Store := Store.mk [ownerBob] [vinVeh] []

def annaCust : CustomerDoc :=
  CustomerDoc.mk "cccccccccccccccccccccccc" "Anna" "111" "a@a"

def annaVeh1 : VehicleDoc :=
  VehicleDoc.mk "dddddddddddddddddddddddd" "cccccccccccccccccccccccc" "ANNAV1"
    "P1" "M1" "D1" 2000 none

def annaVeh2 : VehicleDoc :=
  VehicleDoc.mk "eeeeeeeeeeeeeeeeeeeeeeee" "cccccccccccccccccccccccc" "XYZ"
    "P2" "M2" "D2" 2001 none

def annaStore : Store := Store.mk [annaCust] [annaVeh1, annaVeh2] []

def badVeh : VehicleDoc :=
  VehicleDoc.mk "ffffffffffffffffffffffff" "notanid" "QQQ7" "P" "M" "D" 2000 none

def badStore : Store := Store.mk [] [badVeh] []

def emptyIdVeh : VehicleDoc :=
  VehicleDoc.mk "ffffffffffffffffffffffff" "" "QQQ7" "P" "M" "D" 2000 none

def dangleVeh : VehicleDoc :=
  VehicleDoc.mk "0123456789abcdef01234567" "abcdefabcdefabcdefabcdef" "QQQ8"
    "P" "M" "D" 2001 none

def dangleStore : Store := Store.mk [] [emptyIdVeh, dangleVeh] []

def dotCust : CustomerDoc :=
  CustomerDoc.mk "cccccccccccccccccccccccc" "abc" "000" "x@y"

def dotStore : Store := Store.mk [dotCust] [] []

def baseInvoice : InvoiceDoc :=
  InvoiceDoc.mk "abcdefabcdefabcdefabcdef" "aaaaaaaaaaaaaaaaaaaaaaaa"
    [LineItem.mk "Base inspection fee" 1 49] 49 4 53 false

def invoiceStore : Store := Store.mk [] [] [baseInvoice]

/-!  ## Counting lemmas  -/

theorem countItems_eq (l : List (String × String)) (acc : Nat × Nat) :
    countItems acc l =
      (acc.1 + (l.map Prod.snd).count "attention",
       acc.2 + (l.map Prod.snd).count "fail") := by
  induction l generalizing acc with
  | nil => simp [countItems]
  | cons iv rest ih =>
    simp only [countItems, List.map_cons]
    rw [ih]
    by_cases ha : iv.2 = "attention"
    · have hf : iv.2 ≠ "fail" := by rw [ha]; decide
      simp [ha, hf, List.count_cons]
      omega
    · by_cases hf : iv.2 = "fail"
      · simp [ha, hf, List.count_cons]
        omega
      · simp [ha, hf, List.count_cons]

theorem countChecks_eq (checks : Checks) (acc : Nat × Nat) :
    countChecks acc checks =
      (acc.1 + statusCount "attention" checks,
       acc.2 + statusCount "fail" checks) := by
  induction checks generalizing acc with
  | nil => simp [countChecks, statusCount, allStatuses]
  | cons sec rest ih =>
    simp only [countChecks]
    rw [countItems_eq, ih]
    simp only [statusCount, allStatuses, List.map_cons, List.flatten_cons,
      List.map_append, List.count_append, Prod.mk.injEq]
    omega

/-!  ## Rounding lemmas  -/

/-- On a value that is already an exact 2-decimal amount, Python's
banker's rounding and the specification's half-up rounding both act as the
identity, hence agree. -/
theorem round2_exact (x : ℚ) (n : ℤ) (h : x * 100 = (n : ℚ)) :
    pyRound2 x = x ∧ roundHalfUp2 x = x := by
  have hx : x = (n : ℚ) / 100 := by
    field_simp
    linarith
  constructor
  · unfold pyRound2 roundHalfToEven
    rw [h]
    simp only [Int.floor_intCast]
    rw [if_pos (by norm_num)]
    rw [hx]
  · unfold roundHalfUp2
    rw [h]
    have : ⌊(n : ℚ) + 1/2⌋ = n := by
      rw [add_comm, Int.floor_add_int]
      norm_num
    rw [this, hx]

theorem invoiceFromCounts_subtotal (a f : Nat) :
    (invoiceFromCounts (a, f)).subtotal = 25 * (a : ℚ) + 60 * (f : ℚ) + 49 := by
  by_cases ha : a = 0 <;> by_cases hf : f = 0 <;>
    simp [invoiceFromCounts, ha, hf] <;> ring

/-!  ## Claim C1  -/

/-- C1: the Invoice Deriver counts `attention` and `fail` statuses across all
sections (ignoring every other status) and emits the line items in the fixed
order: Preventive maintenance (qty = attention count, price 25.00) iff the
attention count is positive, then Critical repair (qty = fail count, price
60.00) iff the fail count is positive, then always the Base inspection fee
(qty 1, price 49.00), and nothing else. -/
theorem derive_invoice_line_items (checks : Checks) :
    (derive_invoice checks).line_items =
      (if 0 < statusCount "attention" checks then
        [LineItem.mk "Preventive maintenance items" (statusCount "attention" checks) 25]
       else []) ++
      (if 0 < statusCount "fail" checks then
        [LineItem.mk "Critical repair items" (statusCount "fail" checks) 60]
       else []) ++
      [LineItem.mk "Base inspection fee" 1 49] := by
  unfold derive_invoice
  rw [countChecks_eq]
  by_cases ha : statusCount "attention" checks = 0 <;>
    by_cases hf : statusCount "fail" checks = 0 <;>
      simp [invoiceFromCounts, ha, hf, Nat.pos_of_ne_zero, Nat.pos_iff_ne_zero] <;>
        norm_num

/-!  ## Claim C2  -/

/-- C2: for every `checks` mapping, the derived invoice satisfies
`subtotal = Σ (qty × price)` over the line items in exact arithmetic,
`taxes = round(subtotal * 0.08, 2)` with half-up rounding,
`total = round(subtotal + taxes, 2)` with half-up rounding, all three amounts
are exact 2-decimal values, and `paid = false`. -/
theorem derive_invoice_amounts (checks : Checks) :
    (derive_invoice checks).subtotal =
        ((derive_invoice checks).line_items.map
          (fun li => (li.qty : ℚ) * li.price)).sum ∧
    (derive_invoice checks).taxes =
        roundHalfUp2 ((derive_invoice checks).subtotal * 0.08) ∧
    (derive_invoice checks).total =
        roundHalfUp2
          ((derive_invoice checks).subtotal + (derive_invoice checks).taxes) ∧
    twoDecimal (derive_invoice checks).subtotal ∧
    twoDecimal (derive_invoice checks).taxes ∧
    twoDecimal (derive_invoice checks).total ∧
    (derive_invoice checks).paid = false := by
  have hcounts := countChecks_eq checks (0, 0)
  obtain ⟨a, f, haf⟩ : ∃ a f, countChecks (0, 0) checks = (a, f) :=
    ⟨_, _, hcounts⟩
  have hderive : derive_invoice checks = invoiceFromCounts (a, f) := by
    unfold derive_invoice
    rw [haf]
  have hsub : (invoiceFromCounts (a, f)).subtotal =
      25 * (a : ℚ) + 60 * (f : ℚ) + 49 := invoiceFromCounts_subtotal a f
  have hsum : (invoiceFromCounts (a, f)).subtotal =
      ((invoiceFromCounts (a, f)).line_items.map
        (fun li => (li.qty : ℚ) * li.price)).sum := rfl
  have htaxdef : (invoiceFromCounts (a, f)).taxes =
      pyRound2 ((invoiceFromCounts (a, f)).subtotal * 0.08) := rfl
  have htotdef : (invoiceFromCounts (a, f)).total =
      pyRound2
        ((invoiceFromCounts (a, f)).subtotal + (invoiceFromCounts (a, f)).taxes) := rfl
  have hpaid : (invoiceFromCounts (a, f)).paid = false := rfl
  have htax8 : ((invoiceFromCounts (a, f)).subtotal * 0.08) * 100 =
      (((25 * (a : ℤ) + 60 * (f : ℤ) + 49) * 8 : ℤ) : ℚ) := by
    rw [hsub]
    push_cast
    ring
  have htaxes := round2_exact _ _ htax8
  have htaxval : (invoiceFromCounts (a, f)).taxes =
      (invoiceFromCounts (a, f)).subtotal * 0.08 := by
    rw [htaxdef, htaxes.1]
  have htot108 : ((invoiceFromCounts (a, f)).subtotal +
        (invoiceFromCounts (a, f)).taxes) * 100 =
      (((25 * (a : ℤ) + 60 * (f : ℤ) + 49) * 108 : ℤ) : ℚ) := by
    rw [htaxval, hsub]
    push_cast
    ring
  have htotal := round2_exact _ _ htot108
  have hsub100 : (invoiceFromCounts (a, f)).subtotal * 100 =
      (((25 * (a : ℤ) + 60 * (f : ℤ) + 49) * 100 : ℤ) : ℚ) := by
    rw [hsub]
    push_cast
    ring
  rw [hderive]
  refine ⟨hsum, ?_, ?_, ?_, ?_, ?_, hpaid⟩
  · rw [htaxdef, htaxes.1, htaxes.2]
  · rw [htotdef, htotal.1, htotal.2]
  · exact ⟨(25 * (a : ℤ) + 60 * (f : ℤ) + 49) * 100, by
      have := hsub100
      field_simp at this ⊢
      linarith⟩
  · exact ⟨(25 * (a : ℤ) + 60 * (f : ℤ) + 49) * 8, by
      have h := htax8
      rw [htaxval]
      field_simp at h ⊢
      linarith⟩
  · exact ⟨(25 * (a : ℤ) + 60 * (f : ℤ) + 49) * 108, by
      have h := htot108
      rw [htotdef, htotal.1]
      field_simp at h ⊢
      linarith⟩

/-!  ## Claim C3  -/

theorem forall₂_snd_perm {c' c₂ : Checks}
    (h2 : List.Forall₂ (fun s t => s.1 = t.1 ∧ List.Perm s.2 t.2) c' c₂) :
    List.Forall₂ List.Perm (c'.map Prod.snd) (c₂.map Prod.snd) := by
  induction h2 with
  | nil => exact List.Forall₂.nil
  | cons hst _ ih => exact List.Forall₂.cons hst.2 ih

theorem allStatuses_perm {c₁ c₂ : Checks} (h : ChecksPerm c₁ c₂) :
    List.Perm (allStatuses c₁) (allStatuses c₂) := by
  obtain ⟨c', h1, h2⟩ := h
  have p1 : List.Perm (allStatuses c₁) (allStatuses c') :=
    ((h1.map Prod.snd).flatten).map Prod.snd
  have p2 : List.Perm (allStatuses c') (allStatuses c₂) :=
    (List.Perm.flatten_congr (forall₂_snd_perm h2)).map Prod.snd
  exact p1.trans p2

/-- C3: the Invoice Deriver is deterministic and order-independent — two
`checks` mappings containing the same sections and items with the same
statuses, in permuted insertion order of sections and of items within
sections, derive identical line items, subtotal, taxes and total. -/
theorem derive_invoice_order_independent (c₁ c₂ : Checks) (h : ChecksPerm c₁ c₂) :
    derive_invoice c₁ = derive_invoice c₂ := by
  have hp := allStatuses_perm h
  unfold derive_invoice
  congr 1
  rw [countChecks_eq, countChecks_eq]
  unfold statusCount
  rw [hp.count_eq, hp.count_eq]

/-- Concrete instantiation of the order-independence theorem. -/
theorem derive_invoice_order_independent_witness :
    derive_invoice [("s1", [("i1", "ok"), ("i2", "fail")]), ("s2", [("i3", "attention")])] =
      derive_invoice [("s2", [("i3", "attention")]), ("s1", [("i2", "fail"), ("i1", "ok")])] :=
  derive_invoice_order_independent _ _
    ⟨[("s2", [("i3", "attention")]), ("s1", [("i1", "ok"), ("i2", "fail")])],
      by decide, by decide⟩

/-!  ## Grouping lemmas  -/

theorem findG_insertVeh (gs : List GroupEntry) (cid : String)
    (cust : Option CustomerDoc) (v : VehicleDoc) (k : String) :
    findG (insertVeh gs cid cust v) k =
      if k = cid then
        match findG gs cid with
        | some g => some { g with vehicles := g.vehicles ++ [v] }
        | none => some (GroupEntry.mk cid cust [v])
      else findG gs k := by
  induction gs with
  | nil =>
    by_cases hk : k = cid
    · subst hk
      simp [insertVeh, findG, List.find?]
    · simp [insertVeh, findG, List.find?, hk, Ne.symm hk]
  | cons g gs ih =>
    by_cases hg : g.key = cid
    · simp only [insertVeh, if_pos hg]
      by_cases hk : k = cid
      · subst hk
        simp [findG, List.find?, hg]
      · have hgk : ¬g.key = k := fun h => hk (h.symm.trans hg)
        simp [findG, List.find?, hk, hgk]
    · simp only [insertVeh, if_neg hg]
      by_cases hk : k = cid
      · subst hk
        have hgk : ¬g.key = k := hg
        simp only [findG, List.find?, if_pos rfl] at ih ⊢
        simp [hgk, ih]
      · by_cases hgk : g.key = k
        · simp [findG, List.find?, hgk, hk, hg]
        · simp only [findG, List.find?, if_neg hk] at ih ⊢
          simp [hgk, hg, hk, ih]

theorem findG_buildVehGroups (m : String → Option CustomerDoc)
    (vs : List VehicleDoc) (gs : List GroupEntry) (k : String) :
    findG (buildVehGroups m gs vs) k =
      match findG gs k with
      | some g => some { g with
          vehicles := g.vehicles ++ vs.filter (fun v => v.customer_id = k) }
      | none =>
        if vs.any (fun v => v.customer_id = k) then
          some (GroupEntry.mk k (m k) (vs.filter (fun v => v.customer_id = k)))
        else none := by
  induction vs generalizing gs with
  | nil => cases h : findG gs k <;> simp [buildVehGroups, h]
  | cons v vs ih =>
    simp only [buildVehGroups]
    rw [ih, findG_insertVeh]
    by_cases hk : k = v.customer_id
    · subst hk
      cases h : findG gs v.customer_id with
      | some g => simp [h, List.filter_cons, List.append_assoc]
      | none => simp [h, List.filter_cons, List.any_cons]
    · have hvk : ¬v.customer_id = k := fun h => hk h.symm
      cases h : findG gs k with
      | some g => simp [h, hk, List.filter_cons, hvk]
      | none => simp [h, hk, List.filter_cons, List.any_cons, hvk]

theorem findG_append_single (gs : List GroupEntry) (e : GroupEntry) (k : String) :
    findG (gs ++ [e]) k =
      (findG gs k).or (if e.key = k then some e else none) := by
  unfold findG
  rw [List.find?_append]
  by_cases he : e.key = k <;> simp [List.find?, he]

theorem findG_isSome_of_any {gs : List GroupEntry} {k : String}
    (h : gs.any (fun g => g.key = k) = true) : (findG gs k).isSome := by
  rw [List.any_eq_true] at h
  obtain ⟨g, hg, hk⟩ := h
  exact List.find?_isSome.mpr ⟨g, hg, hk⟩

theorem findG_addCustGroups (A : List VehicleDoc) (cs : List CustomerDoc)
    (gs : List GroupEntry) (k : String) :
    findG (addCustGroups A gs cs) k =
      match findG gs k with
      | some g => some g
      | none =>
        (cs.find? (fun c => c.id = k)).map
          (fun c => GroupEntry.mk c.id (some c)
            (A.filter (fun v => v.customer_id = c.id))) := by
  induction cs generalizing gs with
  | nil => cases h : findG gs k <;> simp [addCustGroups, h]
  | cons c cs ih =>
    simp only [addCustGroups]
    by_cases hany : gs.any (fun g => g.key = c.id) = true
    · rw [if_pos hany, ih]
      cases h : findG gs k with
      | some g => simp [h]
      | none =>
        have hck : ¬c.id = k := by
          intro hck
          have := findG_isSome_of_any hany
          rw [hck, h] at this
          simp at this
        simp [h, List.find?, hck]
    · rw [if_neg hany, ih, findG_append_single]
      cases h : findG gs k with
      | some g => simp [h]
      | none =>
        by_cases hck : c.id = k
        · simp [h, List.find?, hck]
        · simp [h, List.find?, hck]

/-- Master characterization of the groups produced by a non-blank search:
the group under key `k` exists iff some matched vehicle has that owner id
(then it carries `cust_map.get k` and exactly the matched vehicles with that
owner id) or, failing that, iff a matched customer has id `k` (then it
carries that customer and all of the customer's vehicles in the store). -/
theorem findG_resultGroups (st : Store) (query k : String) :
    findG (resultGroups st query) k =
      if (matchedVehicles st query).any (fun v => v.customer_id = k) then
        some (GroupEntry.mk k (custDict st query k)
          ((matchedVehicles st query).filter (fun v => v.customer_id = k)))
      else
        ((matchedCustomers st query).find? (fun c => c.id = k)).map
          (fun c => GroupEntry.mk c.id (some c)
            (st.vehicles.filter (fun v => v.customer_id = c.id))) := by
  unfold resultGroups
  rw [findG_addCustGroups, findG_buildVehGroups]
  have hnil : findG [] k = none := rfl
  rw [hnil]
  by_cases hany : (matchedVehicles st query).any (fun v => v.customer_id = k) = true
  · simp [hany]
  · simp [hany]

theorem findG_some_mem {gs : List GroupEntry} {k : String} {g : GroupEntry}
    (h : findG gs k = some g) : g ∈ gs ∧ g.key = k := by
  refine ⟨List.mem_of_find?_eq_some h, ?_⟩
  have := List.find?_some h
  simpa using this

/-!  ## Customer-id uniqueness and dict lookups  -/

theorem store_uniq {l : List CustomerDoc}
    (hN : (l.map (fun c => c.id)).Nodup) {a b : CustomerDoc}
    (ha : a ∈ l) (hb : b ∈ l) (h : a.id = b.id) : a = b := by
  induction l with
  | nil => cases ha
  | cons x xs ih =>
    simp only [List.map_cons, List.nodup_cons] at hN
    rcases List.mem_cons.mp ha with rfl | ha' <;>
      rcases List.mem_cons.mp hb with rfl | hb'
    · rfl
    · exact absurd (h ▸ List.mem_map_of_mem (fun c : CustomerDoc => c.id) hb') hN.1
    · exact absurd (h ▸ List.mem_map_of_mem (fun c : CustomerDoc => c.id) ha') (by
        intro hx
        exact hN.1 (h ▸ hx))
    · exact ih hN.2 ha' hb'

theorem dictGet_eq_some {cs : List CustomerDoc} {k : String} {c : CustomerDoc}
    (hc : c ∈ cs) (hid : c.id = k)
    (huniq : ∀ a ∈ cs, a.id = k → a = c) :
    dictGet cs k = some c := by
  unfold dictGet
  cases h : cs.reverse.find? (fun a => a.id = k) with
  | none =>
    rw [List.find?_eq_none] at h
    exact absurd (by simpa using hid) (h c (List.mem_reverse.mpr hc))
  | some y =>
    have hy := List.find?_some h
    have hmem := List.mem_of_find?_eq_some h
    rw [List.mem_reverse] at hmem
    rw [huniq y hmem (by simpa using hy)]

theorem dictGet_eq_none {cs : List CustomerDoc} {k : String}
    (h : ∀ a ∈ cs, a.id ≠ k) : dictGet cs k = none := by
  unfold dictGet
  rw [List.find?_eq_none]
  intro a ha
  simpa using h a (List.mem_reverse.mp ha)

/-!  ## Search endpoint lemmas  -/

theorem searchEntries_ok {st : Store} {q : String} {gs : List GroupEntry}
    (hq : pyStrip q ≠ "") (hok : (searchEntries st q).1 = Except.ok gs) :
    gs = resultGroups st (pyStrip q) := by
  simp only [searchEntries] at hok
  rw [if_neg hq] at hok
  by_cases herr : ((missingIds st (pyStrip q)).any
      fun cid => cid ≠ "" && !(isValidObjectId cid)) = true
  · rw [if_pos herr] at hok
    simp at hok
  · rw [if_neg herr] at hok
    simpa using hok.symm

theorem mem_all_customers {st : Store} {query : String} {a : CustomerDoc}
    (ha : a ∈ matchedCustomers st query ++ extrasOf st query) :
    a ∈ st.customers := by
  rcases List.mem_append.mp ha with h | h
  · exact (List.mem_filter.mp h).1
  · unfold extrasOf at h
    by_cases hm : missingIds st query = []
    · rw [if_pos hm] at h
      cases h
    · rw [if_neg hm] at h
      exact (List.mem_filter.mp h).1

theorem valid_id_ne_empty {s : String} (h : isValidObjectId s = true) : s ≠ "" := by
  intro hs
  rw [hs] at h
  simp [isValidObjectId, String.length] at h

/-- Resolution of a matched vehicle's owner id through `cust_map`: whether or
not the owner matched the query text itself, the lookup yields the owner. -/
theorem custDict_resolves {st : Store} {query k : String} {c : CustomerDoc}
    (hN : (st.customers.map (fun x => x.id)).Nodup)
    (hmem : c ∈ st.customers) (hid : c.id = k)
    (hval : isValidObjectId c.id = true)
    (hveh : ((matchedVehicles st query).any fun v => v.customer_id = k) = true) :
    custDict st query k = some c := by
  unfold custDict
  have huniq : ∀ a ∈ matchedCustomers st query ++ extrasOf st query, a.id = k → a = c := by
    intro a ha haid
    exact store_uniq hN (mem_all_customers ha) hmem (haid.trans hid.symm)
  refine dictGet_eq_some ?_ hid huniq
  by_cases hcm : custMatches query c = true
  · exact List.mem_append.mpr (Or.inl (List.mem_filter.mpr ⟨hmem, hcm⟩))
  · have hkm : k ∈ missingIds st query := by
      unfold missingIds
      rw [List.mem_filter]
      constructor
      · rw [List.any_eq_true] at hveh
        obtain ⟨v, hv, hvk⟩ := hveh
        exact List.mem_map.mpr ⟨v, hv, by simpa using hvk⟩
      · simp only [Bool.not_eq_true']
        rw [List.any_eq_false]
        intro a ha
        simp only [decide_eq_true_eq]
        intro hak
        have hac : a = c :=
          store_uniq hN (List.mem_filter.mp ha).1 hmem (hak.trans hid.symm)
        exact hcm (hac ▸ (List.mem_filter.mp ha).2)
    have hmne : missingIds st query ≠ [] := by
      intro h
      rw [h] at hkm
      cases hkm
    refine List.mem_append.mpr (Or.inr ?_)
    unfold extrasOf
    rw [if_neg hmne]
    rw [List.mem_filter]
    refine ⟨hmem, ?_⟩
    rw [Bool.and_eq_true]
    constructor
    · rw [List.any_eq_true]
      exact ⟨k, hkm, by simpa using hid.symm⟩
    · simpa using valid_id_ne_empty hval

/-!  ## Claim C4  -/

/-- C4: a query-matched vehicle whose `customerId` resolves to an existing
customer yields, in a successful search result, a group under that
customer-id whose `customer` field is the owner's full record — whether or
not the owner's own fields matched the query. -/
theorem search_vehicle_owner (st : Store) (q : String) (v : VehicleDoc)
    (c : CustomerDoc) (gs : List GroupEntry)
    (hN : (st.customers.map (fun x => x.id)).Nodup)
    (hval : isValidObjectId c.id = true)
    (hq : pyStrip q ≠ "")
    (hv : v ∈ st.vehicles) (hm : vehMatches (pyStrip q) v = true)
    (hc : c ∈ st.customers) (hcid : c.id = v.customer_id)
    (hok : (searchEntries st q).1 = Except.ok gs) :
    ∃ g ∈ gs, g.key = v.customer_id ∧ g.customer = some c := by
  have hgs := searchEntries_ok hq hok
  subst hgs
  have hvm : v ∈ matchedVehicles st (pyStrip q) := List.mem_filter.mpr ⟨hv, hm⟩
  have hany : ((matchedVehicles st (pyStrip q)).any
      fun w => w.customer_id = v.customer_id) = true := by
    rw [List.any_eq_true]
    exact ⟨v, hvm, by simp⟩
  have hdict := custDict_resolves hN hc hcid hval hany
  have hfind := findG_resultGroups st (pyStrip q) v.customer_id
  rw [if_pos hany, hdict] at hfind
  obtain ⟨hmemg, hkey⟩ := findG_some_mem hfind
  exact ⟨_, hmemg, hkey, rfl⟩

/-!  ## Claim C8  -/

/-- C8: a blank (empty or whitespace-only) query returns an empty result
list and performs zero store accesses. -/
theorem search_blank (st : Store) (q : String) (hq : pyStrip q = "") :
    search st q = (Except.ok [], 0) := by
  simp [search, searchEntries, hq, Except.map]

/-!  ## Claim C10  -/

/-- C10: a query-matched vehicle with a non-empty, malformed `customerId`
that is not among the text-matched customers' ids makes the whole search
fail with the 400 "Invalid ObjectId" error (after only the two text-match
reads), returning no groups. -/
theorem search_invalid_owner_400 (st : Store) (q : String) (v : VehicleDoc)
    (hq : pyStrip q ≠ "")
    (hv : v ∈ st.vehicles) (hm : vehMatches (pyStrip q) v = true)
    (hne : v.customer_id ≠ "") (hinv : isValidObjectId v.customer_id = false)
    (hnc : ∀ c ∈ st.customers, custMatches (pyStrip q) c = true →
      c.id ≠ v.customer_id) :
    searchEntries st q = (Except.error objIdErr, 2) := by
  have hvm : v ∈ matchedVehicles st (pyStrip q) := List.mem_filter.mpr ⟨hv, hm⟩
  have hkm : v.customer_id ∈ missingIds st (pyStrip q) := by
    unfold missingIds
    rw [List.mem_filter]
    refine ⟨List.mem_map.mpr ⟨v, hvm, rfl⟩, ?_⟩
    simp only [Bool.not_eq_true']
    rw [List.any_eq_false]
    intro a ha
    simp only [decide_eq_true_eq]
    have hmf := List.mem_filter.mp ha
    exact hnc a hmf.1 hmf.2
  have herr : ((missingIds st (pyStrip q)).any
      fun cid => cid ≠ "" && !(isValidObjectId cid)) = true := by
    rw [List.any_eq_true]
    exact ⟨v.customer_id, hkm, by simp [hne, hinv]⟩
  simp only [searchEntries]
  rw [if_neg hq, if_pos herr]

/-!  ## Claim C5 (amended)  -/

/-- C5 (amended): a text-matched customer none of whose own vehicles matched
the query (so no vehicle group already occupies their id) gets a group
carrying their full record and ALL of their vehicles fetched from the store.
(When one of the customer's vehicles also matches the query, the code keeps
the vehicle group, which holds only the matched vehicles — see the
counterexample.) -/
theorem search_matched_customer_all_vehicles (st : Store) (q : String)
    (c : CustomerDoc) (gs : List GroupEntry)
    (hN : (st.customers.map (fun x => x.id)).Nodup)
    (hq : pyStrip q ≠ "")
    (hc : c ∈ st.customers) (hm : custMatches (pyStrip q) c = true)
    (hnoveh : ∀ v ∈ st.vehicles, vehMatches (pyStrip q) v = true →
      v.customer_id ≠ c.id)
    (hok : (searchEntries st q).1 = Except.ok gs) :
    ∃ g ∈ gs, g.key = c.id ∧ g.customer = some c ∧
      g.vehicles = st.vehicles.filter (fun v => v.customer_id = c.id) := by
  have hgs := searchEntries_ok hq hok
  subst hgs
  have hany : ((matchedVehicles st (pyStrip q)).any
      fun w => w.customer_id = c.id) = false := by
    rw [List.any_eq_false]
    intro v hv
    simp only [decide_eq_true_eq]
    exact hnoveh v (List.mem_filter.mp hv).1 (List.mem_filter.mp hv).2
  have hcm : c ∈ matchedCustomers st (pyStrip q) := List.mem_filter.mpr ⟨hc, hm⟩
  have hfind := findG_resultGroups st (pyStrip q) c.id
  rw [if_neg (by simp [hany])] at hfind
  cases hfy : (matchedCustomers st (pyStrip q)).find? (fun a => a.id = c.id) with
  | none =>
    rw [List.find?_eq_none] at hfy
    exact absurd (by simp) (hfy c hcm)
  | some y =>
    have hy := List.find?_some hfy
    have hymem := List.mem_of_find?_eq_some hfy
    have hyc : y = c :=
      store_uniq hN (List.mem_filter.mp hymem).1 hc (by simpa using hy)
    subst hyc
    rw [hfy] at hfind
    simp only [Option.map_some'] at hfind
    obtain ⟨hmemg, hkey⟩ := findG_some_mem hfind
    exact ⟨_, hmemg, hkey, rfl, rfl⟩

/-!  ## Claim C6 (amended)  -/

/-- C6 (amended): provided every query-matched vehicle's `customerId` is
empty, well-formed, or owned by a text-matched customer, the search returns
normally, and every matched vehicle whose `customerId` resolves to no
customer record appears in a group keyed by its literal `customerId` string
(the empty string included) with `customer = null`; vehicles with different
unresolved owner ids thus land in different null-customer groups.  (Without
the proviso the search can fail — see the counterexample.) -/
theorem search_unresolved_owner_groups (st : Store) (q : String)
    (hq : pyStrip q ≠ "")
    (hsafe : ∀ v ∈ st.vehicles, vehMatches (pyStrip q) v = true →
      v.customer_id = "" ∨ isValidObjectId v.customer_id = true ∨
        ∃ c ∈ st.customers, custMatches (pyStrip q) c = true ∧
          c.id = v.customer_id) :
    ∃ gs n, searchEntries st q = (Except.ok gs, n) ∧
      ∀ v ∈ st.vehicles, vehMatches (pyStrip q) v = true →
        (∀ c ∈ st.customers, c.id ≠ v.customer_id) →
        ∃ g ∈ gs, g.key = v.customer_id ∧ g.customer = none ∧
          v ∈ g.vehicles := by
  have herr : ((missingIds st (pyStrip q)).any
      fun cid => cid ≠ "" && !(isValidObjectId cid)) = false := by
    rw [List.any_eq_false]
    intro cid hcid
    unfold missingIds at hcid
    have hmf := List.mem_filter.mp hcid
    obtain ⟨v, hvm, hvcid⟩ := List.mem_map.mp hmf.1
    have hvst := (List.mem_filter.mp hvm).1
    have hvmatch := (List.mem_filter.mp hvm).2
    rcases hsafe v hvst hvmatch with h | h | ⟨c, hc, hcmatch, hcid'⟩
    · rw [← hvcid, h]
      simp
    · rw [← hvcid, h]
      simp
    · exfalso
      have hnotmc := hmf.2
      simp only [Bool.not_eq_true'] at hnotmc
      rw [List.any_eq_false] at hnotmc
      exact hnotmc c (List.mem_filter.mpr ⟨hc, hcmatch⟩)
        (by simpa using hcid'.trans hvcid)
  refine ⟨resultGroups st (pyStrip q),
    2 + (if missingIds st (pyStrip q) = [] then 0 else 1) +
      (matchedCustomers st (pyStrip q)).length, ?_, ?_⟩
  · simp only [searchEntries]
    rw [if_neg hq, if_neg (by rw [herr]; exact Bool.false_ne_true)]
  · intro v hv hm hunres
    have hvm : v ∈ matchedVehicles st (pyStrip q) := List.mem_filter.mpr ⟨hv, hm⟩
    have hany : ((matchedVehicles st (pyStrip q)).any
        fun w => w.customer_id = v.customer_id) = true := by
      rw [List.any_eq_true]
      exact ⟨v, hvm, by simp⟩
    have hdict : custDict st (pyStrip q) v.customer_id = none := by
      unfold custDict
      refine dictGet_eq_none ?_
      intro a ha
      exact hunres a (mem_all_customers ha)
    have hfind := findG_resultGroups st (pyStrip q) v.customer_id
    rw [if_pos hany, hdict] at hfind
    obtain ⟨hmemg, hkey⟩ := findG_some_mem hfind
    exact ⟨_, hmemg, hkey, rfl, List.mem_filter.mpr ⟨hvm, by simp⟩⟩

/-!  ## Claim C7 (regex vs substring)  -/

theorem matchesHere_literal {pat : List Char}
    (hlit : ∀ p ∈ pat, isLiteralChar p = true) (s : List Char) :
    matchesHere pat s = matchFront (pat.map Char.toLower) (s.map Char.toLower) := by
  induction pat generalizing s with
  | nil => cases s <;> simp [matchesHere, matchFront]
  | cons p ps ih =>
    cases s with
    | nil => simp [matchesHere, matchFront]
    | cons c cs =>
      have hp : ¬p = '.' := by
        have h := hlit p (List.mem_cons_self p ps)
        simp only [isLiteralChar, Bool.not_eq_true', Bool.or_eq_false_iff,
          decide_eq_false_iff_not] at h
        exact h.1.1.1.1.1.1.1.1.1.1.1.1.1
      have ihs := ih (fun x hx => hlit x (List.mem_cons_of_mem p hx))
      simp [matchesHere, matchFront, charMatches, hp, ihs]

theorem regexSearch_literal {pat : List Char}
    (hlit : ∀ p ∈ pat, isLiteralChar p = true) (s : List Char) :
    regexSearch pat s = hasSub (pat.map Char.toLower) (s.map Char.toLower) := by
  induction s with
  | nil => simp [regexSearch, hasSub, matchesHere_literal hlit]
  | cons c cs ih => simp [regexSearch, hasSub, matchesHere_literal hlit, ih]

/-- C7 (amended): search matches a customer iff the query, read as a
case-insensitive regex pattern, occurs in name, phone or email, and a
vehicle iff it occurs in vin, plate, make or model — and for queries made of
regex-literal characters only this is exactly case-insensitive substring
containment on those fields.  (For queries containing metacharacters the
substring reading fails — see the counterexample.) -/
theorem search_match_literal_substring (q : String)
    (hlit : ∀ ch ∈ q.data, isLiteralChar ch = true)
    (c : CustomerDoc) (v : VehicleDoc) :
    custMatches q c =
      (ciSubstr q c.name || ciSubstr q c.phone || ciSubstr q c.email) ∧
    vehMatches q v =
      (ciSubstr q v.vin || ciSubstr q v.plate || ciSubstr q v.make ||
        ciSubstr q v.model) := by
  unfold custMatches vehMatches ciSubstr
  rw [regexSearch_literal hlit, regexSearch_literal hlit,
    regexSearch_literal hlit, regexSearch_literal hlit,
    regexSearch_literal hlit, regexSearch_literal hlit,
    regexSearch_literal hlit]
  exact ⟨rfl, rfl⟩

/-!  ## Claim C9  -/

theorem setPaidFirst_no_match {l : List InvoiceDoc} {iid : String}
    (h : ∀ i ∈ l, i.id ≠ iid) : setPaidFirst l iid = l := by
  induction l with
  | nil => rfl
  | cons i rest ih =>
    have hi := h i (List.mem_cons_self i rest)
    simp [setPaidFirst, hi, ih (fun j hj => h j (List.mem_cons_of_mem i hj))]

theorem find?_setPaidFirst {l : List InvoiceDoc} {iid : String} {inv : InvoiceDoc}
    (h : l.find? (fun i => i.id = iid) = some inv) :
    (setPaidFirst l iid).find? (fun i => i.id = iid) =
      some { inv with paid := true } := by
  induction l with
  | nil => cases h
  | cons i rest ih =>
    by_cases hi : i.id = iid
    · simp [List.find?_cons_of_pos, hi] at h
      subst h
      unfold setPaidFirst
      rw [if_pos hi, List.find?_cons_of_pos _ (by simp [hi])]
    · rw [List.find?_cons_of_neg _ (by simp [hi])] at h
      unfold setPaidFirst
      rw [if_neg hi, List.find?_cons_of_neg _ (by simp [hi])]
      exact ih h

/-- C9: with a well-formed invoice id, `/pay` on a nonexistent invoice fails
with 404 "Invoice not found" and leaves the store unchanged; on an existing
invoice it sets `paid = true`, stores the update, and returns the updated
invoice. -/
theorem pay_invoice_spec (st : Store) (iid : String)
    (hid : isValidObjectId iid = true) :
    ((∀ i ∈ st.invoices, i.id ≠ iid) →
        pay_invoice st iid = (Except.error (HErr.mk 404 "Invoice not found"), st)) ∧
    (∀ inv, st.invoices.find? (fun i => i.id = iid) = some inv →
        pay_invoice st iid =
          (Except.ok (some { inv with paid := true }),
           { st with invoices := setPaidFirst st.invoices iid })) := by
  constructor
  · intro h
    have hany : (st.invoices.any fun i => i.id = iid) = false := by
      rw [List.any_eq_false]
      intro i hi
      simpa using h i hi
    simp only [pay_invoice]
    rw [if_pos hid, if_neg (by simp [hany]), setPaidFirst_no_match h]
  · intro inv hfind
    have hany : (st.invoices.any fun i => i.id = iid) = true := by
      rw [List.any_eq_true]
      exact ⟨inv, List.mem_of_find?_eq_some hfind,
        by simpa using List.find?_some hfind⟩
    simp only [pay_invoice]
    rw [if_pos hid, if_pos hany, find?_setPaidFirst hfind]

/-!  ## Witnesses and counterexamples  -/

/-- Concrete instantiation of C4: the query "zzz" matches only the vehicle's
VIN, yet the group carries the non-matching owner's record. -/
theorem search_vehicle_owner_witness :
    ∃ g ∈ [GroupEntry.mk "aaaaaaaaaaaaaaaaaaaaaaaa" (some ownerBob) [vinVeh]],
      g.key = vinVeh.customer_id ∧ g.customer = some ownerBob :=
  search_vehicle_owner vinStore "zzz" vinVeh ownerBob
    [GroupEntry.mk "aaaaaaaaaaaaaaaaaaaaaaaa" (some ownerBob) [vinVeh]]
    (by decide) (by decide) (by decide) (by decide) (by decide) (by decide)
    (by decide) (by decide)

/-- C5 counterexample: "anna" matches both the customer and her first
vehicle; the customer's group then contains only the matched vehicle, not
all of her vehicles. -/
theorem search_matched_customer_all_vehicles_cex :
    (searchEntries annaStore "anna").1 =
      Except.ok [GroupEntry.mk "cccccccccccccccccccccccc" (some annaCust) [annaVeh1]] ∧
    custMatches (pyStrip "anna") annaCust = true ∧
    annaStore.vehicles.filter (fun v => v.customer_id = annaCust.id) =
      [annaVeh1, annaVeh2] ∧
    ([annaVeh1] : List VehicleDoc) ≠ [annaVeh1, annaVeh2] := by decide

/-- Concrete instantiation of the amended C5: "bob" matches only the
customer, whose group then carries all of the customer's vehicles. -/
theorem search_matched_customer_all_vehicles_witness :
    ∃ g ∈ [GroupEntry.mk "aaaaaaaaaaaaaaaaaaaaaaaa" (some ownerBob) [vinVeh]],
      g.key = ownerBob.id ∧ g.customer = some ownerBob ∧
      g.vehicles = vinStore.vehicles.filter (fun v => v.customer_id = ownerBob.id) :=
  search_matched_customer_all_vehicles vinStore "bob" ownerBob
    [GroupEntry.mk "aaaaaaaaaaaaaaaaaaaaaaaa" (some ownerBob) [vinVeh]]
    (by decide) (by decide) (by decide) (by decide) (by decide) (by decide)

/-- C6 counterexample: a matched vehicle with the unresolved, malformed owner
id "notanid" makes the whole search fail with 400 instead of returning a
null-customer group. -/
theorem search_unresolved_owner_groups_cex :
    badVeh.customer_id ≠ "" ∧
    vehMatches (pyStrip "qqq") badVeh = true ∧
    (∀ c ∈ badStore.customers, c.id ≠ badVeh.customer_id) ∧
    searchEntries badStore "qqq" = (Except.error objIdErr, 2) := by decide

/-- Concrete instantiation of the amended C6: an empty and a well-formed
dangling owner id each get their own null-customer group. -/
theorem search_unresolved_owner_groups_witness :
    ∃ gs n, searchEntries dangleStore "qqq" = (Except.ok gs, n) ∧
      ∀ v ∈ dangleStore.vehicles, vehMatches (pyStrip "qqq") v = true →
        (∀ c ∈ dangleStore.customers, c.id ≠ v.customer_id) →
        ∃ g ∈ gs, g.key = v.customer_id ∧ g.customer = none ∧ v ∈ g.vehicles :=
  search_unresolved_owner_groups dangleStore "qqq" (by decide) (by decide)

/-- C7 counterexample: the query "a.c" is not a substring of any field of
the customer, yet the regex-based match returns the customer's group. -/
theorem search_match_literal_substring_cex :
    (searchEntries dotStore "a.c").1 =
      Except.ok [GroupEntry.mk "cccccccccccccccccccccccc" (some dotCust) []] ∧
    ciSubstr "a.c" dotCust.name = false ∧
    ciSubstr "a.c" dotCust.phone = false ∧
    ciSubstr "a.c" dotCust.email = false := by decide

/-- Concrete instantiation of the amended C7 on a metacharacter-free query. -/
theorem search_match_literal_substring_witness :
    custMatches "bo" ownerBob =
      (ciSubstr "bo" ownerBob.name || ciSubstr "bo" ownerBob.phone ||
        ciSubstr "bo" ownerBob.email) ∧
    vehMatches "bo" vinVeh =
      (ciSubstr "bo" vinVeh.vin || ciSubstr "bo" vinVeh.plate ||
        ciSubstr "bo" vinVeh.make || ciSubstr "bo" vinVeh.model) :=
  search_match_literal_substring "bo" (by decide) ownerBob vinVeh

/-- Concrete instantiation of C8 on a whitespace-only query. -/
theorem search_blank_witness : search vinStore "   " = (Except.ok [], 0) :=
  search_blank vinStore "   " (by decide)

/-- Concrete instantiation of C9 on an existing invoice. -/
theorem pay_invoice_spec_witness :
    pay_invoice invoiceStore "abcdefabcdefabcdefabcdef" =
      (Except.ok (some { baseInvoice with paid := true }),
       { invoiceStore with
          invoices := setPaidFirst invoiceStore.invoices "abcdefabcdefabcdefabcdef" }) :=
  (pay_invoice_spec invoiceStore "abcdefabcdefabcdefabcdef" (by decide)).2
    baseInvoice (by decide)

/-- Concrete instantiation of C10: a matched vehicle with the malformed owner
id "notanid" turns the whole search into a 400 error. -/
theorem search_invalid_owner_400_witness :
    searchEntries badStore "qqq" = (Except.error objIdErr, 2) :=
  search_invalid_owner_400 badStore "qqq" badVeh (by decide) (by decide)
    (by decide) (by decide) (by decide) (by decide)



